import Mathlib

/-!
Verification of the eBay product scraper/transformer
(`src/app/services/ebay-scraper.server.ts`).

The TypeScript pipeline is embedded shallowly:
* JS strings are Lean `String`s; JS string operations (`includes`,
  `startsWith`, `trim`, `toLowerCase`, the two regexes) are modelled
  character-wise over `String.data`.
* JS numbers are modelled as `Rat` (the API emits decimal prices);
  JS falsiness of a number is `= 0`, of a string is `= ""`,
  of a possibly-absent value is `Option`-`none` (NaN, which no claim
  touches, is conflated with `none` where it can arise).
* The single outbound HTTP call is modelled by a `FetchOutcome`
  parameter (the response the network would deliver, or a transport
  error); the number of network requests actually issued is returned
  alongside the result.
* `throw`/`try`/`catch` become an `Except` pipeline (`scrapeCore`) whose
  errors the top-level wrapper (`scrapeEbayProduct`) converts to the
  tagged result shape, exactly as the `catch` block does.
-/

namespace EbayScraper

/-! ### Character-list string primitives -/

/-- Boolean list-prefix test (used to model JS `startsWith` and as the
scanning step of substring search). -/
def isPrefixOfB : List Char → List Char → Bool
  | [], _ => true
  | _ :: _, [] => false
  | a :: as, b :: bs => a == b && isPrefixOfB as bs

/-- Does `needle` occur as a contiguous infix of `hay`?  Models JS
`String.prototype.includes`. -/
def infixB (needle : List Char) : List Char → Bool
  | [] => isPrefixOfB needle []
  | c :: cs => isPrefixOfB needle (c :: cs) || infixB needle cs

/-- JS `hay.includes(needle)`. -/
def containsSub (hay needle : String) : Bool :=
  infixB needle.data hay.data

/-- JS `s.startsWith(p)`. -/
def startsWithB (s p : String) : Bool :=
  isPrefixOfB p.data s.data

/-- JS `s.toLowerCase()` (ASCII case folding, which covers every string
the scraper lower-cases). -/
def strLower (s : String) : String :=
  ⟨s.data.map Char.toLower⟩

/-- JS `s.trim()` on the character list: drop whitespace from both ends. -/
def trimChars (l : List Char) : List Char :=
  ((l.dropWhile Char.isWhitespace).reverse.dropWhile Char.isWhitespace).reverse

/-- JS `s.trim()`. -/
def jsTrim (s : String) : String :=
  ⟨trimChars s.data⟩

/-! ### JS truthiness helpers -/

/-- Truthiness of a possibly-absent JS string: present and non-empty. -/
def truthyS : Option String → Bool
  | none => false
  | some s => !(s == "")

/-- JS `a || b` on possibly-absent strings (used for
`apiKey || process.env.RAPIDAPI_KEY`). -/
def jsOrS (a b : Option String) : Option String :=
  if truthyS a then a else b

/-- JS `a || d` where `a` is a possibly-absent string and `d` a string
default (`apiData.url || ebayUrl`, `currency || "USD"`, ...). -/
def jsStrOr (a : Option String) (d : String) : String :=
  match a with
  | some s => if s == "" then d else s
  | none => d

/-- JS `a || d` where `a` is a possibly-absent number (`variant.price ||
basePrice`): `0` is falsy. -/
def jsOrRat (a : Option Rat) (d : Rat) : Rat :=
  match a with
  | some x => if x == 0 then d else x
  | none => d

/-! ### Numeric parsing (rating / review count only; no claim depends
on the finer points of JS number parsing) -/

/-- Value of a list of decimal digits. -/
def digitsVal (l : List Char) : Nat :=
  l.foldl (fun acc c => acc * 10 + (c.toNat - 48)) 0

/-- Models JS `parseInt` for the inputs the scraper feeds it (an
optionally signed decimal integer); `none` models NaN. -/
def parseIntModel (s : String) : Option Int :=
  match s.data with
  | '-' :: rest =>
    let ds := rest.takeWhile Char.isDigit
    if ds.isEmpty then none else some (-(digitsVal ds : Int))
  | l =>
    let ds := l.takeWhile Char.isDigit
    if ds.isEmpty then none else some (digitsVal ds : Int)

/-- Models JS `parseFloat` for the decimal forms the API emits
(`"4.5"`); `none` models NaN. -/
def parseFloatModel (s : String) : Option Rat :=
  let l := s.data
  let ds := l.takeWhile Char.isDigit
  if ds.isEmpty then none
  else
    let rest := l.drop ds.length
    match rest with
    | '.' :: fs =>
      let fds := fs.takeWhile Char.isDigit
      some ((digitsVal ds : Rat) + (digitsVal fds : Rat) / ((10 : Rat) ^ fds.length))
    | _ => some (digitsVal ds : Rat)

/-- JS `s.replace(/,/g, "")` applied to the reviews count. -/
def stripCommas (s : String) : String :=
  ⟨s.data.filter (fun c => !(c == ','))⟩

/-! ### Data model (mirrors the TS interfaces) -/

/-- The `body.price` object of the API response. -/
structure PriceObj where
  value : Rat
  currency : Option String
deriving DecidableEq

/-- One option descriptor value, e.g. `{ "values": [...], "selectedValue": "" }`.
`values` is `some` exactly when the field is present and an array. -/
structure OptionData where
  values : Option (List String)
  selectedValue : Option String
deriving DecidableEq

/-- One element of the API `options` array: a JS object, i.e. an ordered
list of `(name, optionData)` entries as produced by `Object.entries`;
the data may be `null` (`none`). -/
abbrev OptionObj := List (String × Option OptionData)

/-- The `body` field of the API envelope (the fields the scraper reads).
`none` on a field models the field being absent. -/
structure ApiBody where
  title : Option String
  price : Option PriceObj
  url : Option String
  condition : Option String
  mainImage : Option String
  images : Option (List String)
  ratings : Option String
  reviewsCount : Option String
  options : Option (List OptionObj)
  availableQuantity : Option Int
  breadCrumbs : Option (List String)
  description : Option String
  productInformation : Option (List (String × String))
deriving DecidableEq

/-- The API response envelope.  `body = none` models the body being
absent or an empty object (`!apiData || Object.keys(apiData).length === 0`). -/
structure EbayApiResponse where
  original_status : Int
  pc_status : Int
  body : Option ApiBody
deriving DecidableEq

/-- A product option of the normalized model. -/
structure ProductOption where
  name : String
  values : List String
deriving DecidableEq

/-- A variant as produced by `formatEbayVariants`: the generated object
literals carry only `itemId`, `options` and `available`, so `price` is
always `none` there.  The `options` record is an insertion-ordered
association list (JS object built by spreads). -/
structure ProductVariant where
  itemId : String
  options : List (String × String)
  available : Bool
  price : Option Rat
deriving DecidableEq

/-- A variant of the final `ScrapedProduct`, after the base-price
defaulting `{...variant, price: variant.price || basePrice}`. -/
structure FinalVariant where
  itemId : String
  options : List (String × String)
  available : Bool
  price : Rat
deriving DecidableEq

/-- The normalized output product. -/
structure ScrapedProduct where
  itemId : String
  title : String
  description : String
  price : Rat
  currency : String
  images : List String
  options : List ProductOption
  variants : List FinalVariant
  ebayUrl : String
  specifications : Option (List (String × String))
  bulletPoints : Option (List String)
  rating : Option Rat
  ratingsTotal : Option Int
  categories : List String
  availability : String
deriving DecidableEq

/-- Error codes of `createScraperError`. -/
inductive ScraperCode where
  | INVALID_URL
  | API_KEY_MISSING
  | API_ERROR
deriving DecidableEq

/-- A scraper error: message plus code (`createScraperError`). -/
structure ScraperError where
  message : String
  code : ScraperCode
deriving DecidableEq

/-- An error travelling through the `try` block: either a thrown
`ScraperError` or a transport (axios) failure with its message. -/
inductive PipelineError where
  | scraper (e : ScraperError)
  | axios (msg : String)
deriving DecidableEq

/-- The outcome the network would deliver for the single axios call:
a response envelope, or a transport error (timeout, connection error,
non-2xx rejection) carrying the derived message. -/
inductive FetchOutcome where
  | resp (r : EbayApiResponse)
  | axiosFail (msg : String)
deriving DecidableEq

/-- The tagged result crossing the function boundary. -/
inductive ScrapeResult where
  | ok (data : ScrapedProduct)
  | err (error : String)
deriving DecidableEq

/-- Result of a `scrapeEbayProduct` invocation together with the number
of outbound network requests it issued. -/
structure ScrapeOutcome where
  result : ScrapeResult
  requests : Nat
deriving DecidableEq

/-! ### URL validation / item-id extraction -/

/-- Case-insensitive match of the literal `"/itm/"` at the head of `cs`
followed by at least one decimal digit; on success, the maximal digit
run (the regex capture of `/\/itm\/(\d+)/i`). -/
def itmCapture (cs : List Char) : Option (List Char) :=
  if isPrefixOfB ("/itm/".data) (cs.map Char.toLower) then
    let ds := (cs.drop 5).takeWhile Char.isDigit
    if ds.isEmpty then none else some ds
  else none

/-- Leftmost match of the regex over the character list. -/
def itmScan : List Char → Option (List Char)
  | [] => none
  | c :: cs =>
    match itmCapture (c :: cs) with
    | some ds => some ds
    | none => itmScan cs

/-- Models `extractItemId`: `url.match(/\/itm\/(\d+)/i)`, returning the captured
digit group of the leftmost match, or `null`. -/
def extractItemId (url : String) : Option String :=
  (itmScan url.data).map (fun ds => ⟨ds⟩)

/-! ### Image normalization -/

/-- The image filter `img && img.startsWith("http")`. -/
def keepImg (img : String) : Bool :=
  !(img == "") && startsWithB img ("http")

/-- The guard `img.includes("/s-l") && img.includes(".jpg")`. -/
def slRewriteCond (img : String) : Bool :=
  containsSub img ("/s-l") && containsSub img (".jpg")

/-- Match of the regex `/\/s-l\d+\./` at the head of `cs`: the literal
`"/s-l"`, then a maximal non-empty digit run, then a dot.  On success,
the remainder after the matched text.  (`\d+` followed by `\.` admits no
backtracking: a digit is never a dot, so the maximal run is the match.) -/
def slTail : List Char → Option (List Char)
  | '/' :: 's' :: '-' :: 'l' :: rest =>
    let ds := rest.takeWhile Char.isDigit
    if ds.isEmpty then none
    else
      match rest.drop ds.length with
      | '.' :: tail => some tail
      | _ => none
  | _ => none

/-- Models `img.replace(/\/s-l\d+\./, "/s-l1600.")`: replace the leftmost match
only (the regex has no global flag). -/
def replaceSLChars : List Char → List Char
  | [] => []
  | c :: cs =>
    match slTail (c :: cs) with
    | some tail => ("/s-l1600.".data) ++ tail
    | none => c :: replaceSLChars cs

/-- String form of the thumbnail rewrite. -/
def replaceSL (s : String) : String :=
  ⟨replaceSLChars s.data⟩

/-- The per-image map of the normalizer. -/
def normalizeImg (img : String) : String :=
  if slRewriteCond img then replaceSL img else img

/-- The image block of the normalizer: explicit list filtered and
rewritten, else `mainImage` singleton, else empty.  A present-but-empty
`images` array is truthy in JS, so it selects the first branch. -/
def formatImages (images : Option (List String)) (mainImage : Option String) :
    List String :=
  match images with
  | some imgs => (imgs.filter keepImg).map normalizeImg
  | none =>
    match mainImage with
    | some m => if m == "" then [] else [m]
    | none => []

/-! ### Variant expansion -/

/-- The value cleanup inside `formatEbayVariants`:
`values.map(v => v.trim()).filter(v => !v.toLowerCase().includes("out of stock"))`. -/
def availableValues (values : List String) : List String :=
  (values.map jsTrim).filter (fun v => !containsSub (strLower v) ("out of stock"))

/-- The parsing pass of `formatEbayVariants`: iterate the descriptor
objects in order, iterate each object's entries in order, keep
`(name, cleanedValues)` for every entry whose data and `values` array
are present and whose cleaned value list is non-empty.  The source
pushes identical records into `productOptions` and `allOptionValues`,
so one list represents both. -/
def surviving (options : List OptionObj) : List (String × List String) :=
  options.flatMap (fun obj =>
    obj.filterMap (fun entry =>
      match entry.2 with
      | some od =>
        match od.values with
        | some vs =>
          let av := availableValues vs
          if av.length > 0 then some (entry.1, av) else none
        | none => none
      | none => none))

/-- JS object spread `{...cur, [k]: v}`: overwrite the value if the key
exists (keeping its position), else append the new entry. -/
def rset (r : List (String × String)) (k v : String) : List (String × String) :=
  if r.any (fun p => p.1 == k) then
    r.map (fun p => if p.1 == k then (k, v) else p)
  else r ++ [(k, v)]

/-- Models `generateCombinations`: depth-first enumeration over the surviving
options, options in order, values in filtered order; each full
assignment yields `{ itemId: "", options: {...}, available: true }`
(no `price` key, hence `price := none`). -/
def genComb : List (String × List String) → List (String × String) → List ProductVariant
  | [], cur => [{ itemId := "", options := cur, available := true, price := none }]
  | (name, vals) :: rest, cur =>
    vals.flatMap (fun v => genComb rest (rset cur name v))

/-- Models `formatEbayVariants`. -/
def formatEbayVariants (options : List OptionObj) :
    List ProductOption × List ProductVariant :=
  if options.length = 0 then ([], [])
  else
    let allOptionValues := surviving options
    if allOptionValues.length = 0 then ([], [])
    else
      (allOptionValues.map (fun p => { name := p.1, values := p.2 }),
       genComb allOptionValues [])

/-! ### Normalizer -/

/-- The essential-field check of the response validator:
`hasTitle = apiData.title` (truthy string) and
`hasPrice = apiData.price?.value` (truthy number, so an explicit `0` is
treated as missing); the check throws when `!hasTitle || !hasPrice`. -/
def essentialOk (b : ApiBody) : Bool :=
  truthyS b.title && (match b.price with
    | some p => !(p.value == 0)
    | none => false)

/-- The description synthesis: explicit description, else the joined
`"name: value"` lines of `productInformation`, else empty (the final
fallback string is applied in `buildProduct`). -/
def descriptionOf (b : ApiBody) : String :=
  let d0 := b.description.getD ("")
  if d0 == "" then
    match b.productInformation with
    | some pis => String.intercalate ("\n") (pis.map (fun p => p.1 ++ ": " ++ p.2))
    | none => d0
  else d0

/-- Models `Object.fromEntries`: later entries with the same key overwrite
earlier ones. -/
def fromEntries (l : List (String × String)) : List (String × String) :=
  l.foldl (fun acc p => rset acc p.1 p.2) []

/-- The availability string: `availableQuantity` (truthy number) as
`"N available"`, else `condition || "Available"`. -/
def availabilityOf (b : ApiBody) : String :=
  match b.availableQuantity with
  | some q => if q == 0 then jsStrOr b.condition ("Available")
              else toString q ++ " available"
  | none => jsStrOr b.condition ("Available")

/-- Construction of the `ScrapedProduct` from a validated body (the code
after the essential-field check).  `basePrice = apiData.price.value || 0`:
the check guarantees `price` is present here, so a missing price object
(unreachable) is modelled as `0`. -/
def buildProduct (itemId ebayUrl : String) (b : ApiBody) : ScrapedProduct :=
  let basePrice := jsOrRat (b.price.map PriceObj.value) 0
  let variantsData := formatEbayVariants (b.options.getD [])
  let d1 := descriptionOf b
  { itemId := itemId
    title := b.title.getD ("")
    description := if d1 == "" then "No description available" else d1
    price := basePrice
    currency := jsStrOr (b.price.bind PriceObj.currency) ("USD")
    images := formatImages b.images b.mainImage
    options := variantsData.1
    variants := variantsData.2.map (fun v =>
      { itemId := v.itemId, options := v.options, available := v.available,
        price := jsOrRat v.price basePrice })
    ebayUrl := jsStrOr b.url ebayUrl
    specifications := b.productInformation.map fromEntries
    bulletPoints := b.productInformation.map (fun pis =>
      pis.map (fun p => p.1 ++ ": " ++ p.2))
    rating := match b.ratings with
      | some r => if r == "" then none else parseFloatModel r
      | none => none
    ratingsTotal := match b.reviewsCount with
      | some rc => if rc == "" then none else parseIntModel (stripCommas rc)
      | none => none
    categories := b.breadCrumbs.getD []
    availability := availabilityOf b }

/-! ### The pipeline -/

/-- The error `createScraperError("Invalid eBay URL", "INVALID_URL")`. -/
def invalidUrlErr : ScraperError :=
  { message := "Invalid eBay URL", code := .INVALID_URL }

/-- The missing-item-id error. -/
def noItemIdErr : ScraperError :=
  { message := "Could not extract Item ID from URL", code := .INVALID_URL }

/-- The missing-credential error. -/
def apiKeyMissingErr : ScraperError :=
  { message := "RapidAPI key is required. Please add it in Settings or set RAPIDAPI_KEY environment variable.",
    code := .API_KEY_MISSING }

/-- The bad-status error. -/
def statusErr : ScraperError :=
  { message := "Failed to fetch product data from eBay. Please check if the URL is valid and the product is available.",
    code := .API_ERROR }

/-- The empty-body error. -/
def emptyBodyErr : ScraperError :=
  { message := "Product not found. This could mean: 1) The item doesn\x27t exist or is no longer available on eBay, 2) Your RapidAPI key has reached its request limit. Please check your RapidAPI dashboard at https://rapidapi.com/hub and verify your subscription status.",
    code := .API_ERROR }

/-- The incomplete-essential-data error. -/
def incompleteDataErr : ScraperError :=
  { message := "Incomplete product data received from eBay. The product may not be available for sale. Please try a different product URL.",
    code := .API_ERROR }

/-- The body of the `try` block: each `throw` is an `Except.error`, and
the second component counts outbound network requests (0 before the
axios call, 1 from the call onwards). -/
def scrapeCore (ebayUrl : String) (apiKey envKey : Option String)
    (fetch : FetchOutcome) : Except PipelineError ScrapedProduct × Nat :=
  if !containsSub ebayUrl ("ebay.") then (.error (.scraper invalidUrlErr), 0)
  else
    match extractItemId ebayUrl with
    | none => (.error (.scraper noItemIdErr), 0)
    | some itemId =>
      if !truthyS (jsOrS apiKey envKey) then (.error (.scraper apiKeyMissingErr), 0)
      else
        match fetch with
        | .axiosFail msg => (.error (.axios msg), 1)
        | .resp r =>
          if !(r.original_status == 200 && r.pc_status == 200) then
            (.error (.scraper statusErr), 1)
          else
            match r.body with
            | none => (.error (.scraper emptyBodyErr), 1)
            | some b =>
              if !essentialOk b then (.error (.scraper incompleteDataErr), 1)
              else (.ok (buildProduct itemId ebayUrl b), 1)

/-- The `catch` block: an axios error surfaces as
`"Failed to fetch eBay product: " + message`, a thrown `Error` surfaces
as its own message (the code is not part of the returned string). -/
def pipelineMessage : PipelineError → String
  | .axios msg => "Failed to fetch eBay product: " ++ msg
  | .scraper e => e.message

/-- Models `scrapeEbayProduct`: the exported entry point, returning the tagged
result (plus the request count of the run). -/
def scrapeEbayProduct (ebayUrl : String) (apiKey envKey : Option String)
    (fetch : FetchOutcome) : ScrapeOutcome :=
  match scrapeCore ebayUrl apiKey envKey fetch with
  | (.ok d, n) => { result := .ok d, requests := n }
  | (.error e, n) => { result := .err (pipelineMessage e), requests := n }

/-! ### Lemmas about the variant generator -/

/-- The depth-first generator produces exactly the cartesian product:
its output length is the product of the value-list lengths. -/
theorem genComb_length (opts : List (String × List String)) :
    ∀ cur, (genComb opts cur).length = (opts.map (fun p => p.2.length)).prod := by
  induction opts with
  | nil => intro cur; simp [genComb]
  | cons hd tl ih =>
    intro cur
    obtain ⟨name, vals⟩ := hd
    simp only [genComb, List.map_cons, List.prod_cons]
    induction vals with
    | nil => simp
    | cons v vs ihv =>
      simp only [List.flatMap_cons, List.length_append, ihv, ih, List.length_cons]
      ring

end EbayScraper

namespace EbayScraper

/-- The concrete options input of the spec example:
`[{"Color": {"values": ["Black", "Pink", "Out of Stock"]}}, {"Size": {"values": ["S", "M"]}}]`. -/
def exOptsC1 : List OptionObj :=
  [[("Color", some { values := some ["Black", "Pink", "Out of Stock"],
                     selectedValue := some ("") })],
   [("Size", some { values := some ["S", "M"], selectedValue := some ("") })]]

end EbayScraper

namespace EbayScraper

/-- C1: for every options input, the number of generated variants equals
the product of the cardinalities of the surviving options' value lists;
when the options list is empty or no option survives filtering, both the
options and the variants lists are empty; and on the Color/Size example
the result has 2 options and 4 variants, none mapping Color to the
out-of-stock value. -/
theorem C1_variant_count_cartesian :
    (∀ opts : List OptionObj, surviving opts ≠ [] →
      (formatEbayVariants opts).2.length
        = ((surviving opts).map (fun p => p.2.length)).prod)
    ∧ (∀ opts : List OptionObj, opts = [] ∨ surviving opts = [] →
        formatEbayVariants opts = ([], []))
    ∧ (formatEbayVariants exOptsC1).1.length = 2
    ∧ (formatEbayVariants exOptsC1).2.length = 4
    ∧ ∀ v ∈ (formatEbayVariants exOptsC1).2, ("Color", "Out of Stock") ∉ v.options := by
  refine ⟨?_, ?_, by decide, by decide, by decide⟩
  · intro opts h
    unfold formatEbayVariants
    split
    · next he =>
      exfalso
      apply h
      rw [List.length_eq_zero] at he
      subst he
      rfl
    · simp only
      split
      · next he =>
        exact absurd (List.length_eq_zero.mp he) h
      · exact genComb_length (surviving opts) []
  · intro opts h
    rcases h with h | h
    · subst h; rfl
    · unfold formatEbayVariants
      split
      · rfl
      · simp only [h, List.length_nil, if_true]

/-- Witness for C1: the hypotheses are dischargeable — at the spec
example at least one option survives and the product formula holds, and
the empty options list yields the empty result. -/
theorem C1_variant_count_cartesian_witness :
    ((formatEbayVariants exOptsC1).2.length
        = ((surviving exOptsC1).map (fun p => p.2.length)).prod)
    ∧ formatEbayVariants [] = ([], []) :=
  ⟨C1_variant_count_cartesian.1 exOptsC1 (by decide),
   C1_variant_count_cartesian.2.1 [] (Or.inl rfl)⟩

/-! ### Inversion of the pipeline -/

/-- A successful pipeline run passes every check and returns exactly the
normalized product of the validated body. -/
theorem scrapeCore_ok_inv (ebayUrl : String) (apiKey envKey : Option String)
    (fetch : FetchOutcome) (d : ScrapedProduct)
    (h : (scrapeCore ebayUrl apiKey envKey fetch).1 = .ok d) :
    ∃ itemId r b, extractItemId ebayUrl = some itemId ∧ fetch = .resp r ∧
      r.body = some b ∧ essentialOk b = true ∧ d = buildProduct itemId ebayUrl b := by
  unfold scrapeCore at h
  split at h
  · exact absurd h (by simp)
  · split at h
    · exact absurd h (by simp)
    · next itemId _ =>
      split at h
      · exact absurd h (by simp)
      · split at h
        · exact absurd h (by simp)
        · next r =>
          split at h
          · exact absurd h (by simp)
          · split at h
            · exact absurd h (by simp)
            · next b _ =>
              split at h
              · exact absurd h (by simp)
              · next hb =>
                refine ⟨itemId, r, b, by assumption, rfl, by assumption, ?_, ?_⟩
                · simpa using hb
                · simpa using h.symm

/-- All generated variant objects lack a `price` key. -/
theorem genComb_price_none (opts : List (String × List String)) :
    ∀ cur v, v ∈ genComb opts cur → v.price = none := by
  induction opts with
  | nil =>
    intro cur v hv
    simp only [genComb, List.mem_singleton] at hv
    subst hv
    rfl
  | cons hd tl ih =>
    intro cur v hv
    obtain ⟨name, vals⟩ := hd
    simp only [genComb, List.mem_flatMap] at hv
    obtain ⟨x, _, hv⟩ := hv
    exact ih _ v hv

/-- All variants returned by `formatEbayVariants` lack a `price` key. -/
theorem formatEbayVariants_price_none (opts : List OptionObj) :
    ∀ v ∈ (formatEbayVariants opts).2, v.price = none := by
  intro v hv
  simp only [formatEbayVariants] at hv
  split at hv
  · simp at hv
  · split at hv
    · simp at hv
    · exact genComb_price_none _ _ v hv

/-- In the final mapping, every variant's price is defaulted to the base
product price (no generated variant carries its own price). -/
theorem buildProduct_variant_price (itemId url : String) (b : ApiBody) :
    ∀ v ∈ (buildProduct itemId url b).variants,
      v.price = (buildProduct itemId url b).price := by
  intro v hv
  simp only [buildProduct, List.mem_map] at hv
  obtain ⟨w, hw, rfl⟩ := hv
  have hp : w.price = none := formatEbayVariants_price_none _ w hw
  simp [buildProduct, hp, jsOrRat]

end EbayScraper

namespace EbayScraper

/-- C3: the exported function always returns one of the two tagged
shapes — a success with a full `ScrapedProduct` or a failure with a
message string — for every input and every network outcome; the failure
shape carries no product (the `ScrapeResult` type makes a simultaneous
`ok`/`err` impossible, matching the returned object literals). -/
theorem C3_tagged_result_shape (ebayUrl : String) (apiKey envKey : Option String)
    (fetch : FetchOutcome) :
    (∃ d, (scrapeEbayProduct ebayUrl apiKey envKey fetch).result = .ok d)
    ∨ (∃ e, (scrapeEbayProduct ebayUrl apiKey envKey fetch).result = .err e) := by
  unfold scrapeEbayProduct
  rcases hsc : scrapeCore ebayUrl apiKey envKey fetch with ⟨r, n⟩
  cases r with
  | ok d => exact Or.inl ⟨d, rfl⟩
  | error e => exact Or.inr ⟨pipelineMessage e, rfl⟩

/-- C10: in every successful `ScrapedProduct`, every variant's price
equals the product's base price: the expander constructs variants
without a price, so the base-price default applies to all of them. -/
theorem C10_variant_price_is_base (ebayUrl : String) (apiKey envKey : Option String)
    (fetch : FetchOutcome) (d : ScrapedProduct)
    (h : (scrapeEbayProduct ebayUrl apiKey envKey fetch).result = .ok d) :
    ∀ v ∈ d.variants, v.price = d.price := by
  have hcore : (scrapeCore ebayUrl apiKey envKey fetch).1 = .ok d := by
    unfold scrapeEbayProduct at h
    rcases hsc : scrapeCore ebayUrl apiKey envKey fetch with ⟨r, n⟩
    rw [hsc] at h
    cases r with
    | ok d0 =>
      simp only [ScrapeResult.ok.injEq] at h
      simp [h]
    | error e => simp at h
  obtain ⟨itemId, r, b, _, _, _, _, rfl⟩ :=
    scrapeCore_ok_inv ebayUrl apiKey envKey fetch d hcore
  exact buildProduct_variant_price itemId ebayUrl b

end EbayScraper

namespace EbayScraper

/-- A concrete body with two surviving options, used to witness the
variant-price and option-key claims. -/
def exBodyC10 : ApiBody :=
  { title := some ("Widget"), price := some { value := 5, currency := some ("USD") },
    url := none, condition := none, mainImage := none, images := none,
    ratings := none, reviewsCount := none, options := some exOptsC1,
    availableQuantity := none, breadCrumbs := none, description := none,
    productInformation := none }

/-- A network outcome delivering `exBodyC10` successfully. -/
def exFetchC10 : FetchOutcome :=
  .resp { original_status := 200, pc_status := 200, body := some exBodyC10 }

/-- The product of the successful example run. -/
def exProdC10 : ScrapedProduct :=
  match (scrapeEbayProduct ("https://www.ebay.com/itm/123") (some ("k")) none
      exFetchC10).result with
  | .ok d => d
  | .err _ => buildProduct ("") ("") exBodyC10

/-- The first variant of the example product. -/
def exVarC10 : FinalVariant :=
  (exProdC10.variants).headD { itemId := "", options := [], available := true, price := 0 }

/-- Witness for C10: a concrete successful run whose first variant's
price equals the base price. -/
theorem C10_variant_price_is_base_witness : exVarC10.price = exProdC10.price :=
  C10_variant_price_is_base ("https://www.ebay.com/itm/123") (some ("k")) none
    exFetchC10 exProdC10 rfl exVarC10 (by decide)

/-! ### Key-set lemmas for the options records -/

/-- Overwriting an existing key leaves the key list unchanged. -/
theorem keys_map_overwrite (r : List (String × String)) (k v : String) :
    (r.map (fun p => if p.1 == k then (k, v) else p)).map Prod.fst
      = r.map Prod.fst := by
  induction r with
  | nil => rfl
  | cons p t ih =>
    simp only [List.map_cons, ih, List.cons.injEq, and_true]
    cases hp : (p.1 == k) with
    | true =>
      rw [beq_iff_eq] at hp
      simp [hp]
    | false => simp

/-- The key set after a spread `{...r, [k]: v}` is the old key set
together with `k`. -/
theorem mem_keys_rset (r : List (String × String)) (k v a : String) :
    a ∈ (rset r k v).map Prod.fst ↔ (a ∈ r.map Prod.fst ∨ a = k) := by
  unfold rset
  split
  · next hc =>
    rw [keys_map_overwrite]
    have hk : k ∈ r.map Prod.fst := by
      rcases List.any_eq_true.mp hc with ⟨p, hp, he⟩
      exact List.mem_map.mpr ⟨p, hp, by rwa [beq_iff_eq] at he⟩
    constructor
    · exact Or.inl
    · rintro (h | rfl)
      · exact h
      · exact hk
  · simp [List.map_append, List.mem_append]

/-- A spread preserves key distinctness. -/
theorem nodup_keys_rset (r : List (String × String)) (k v : String)
    (h : (r.map Prod.fst).Nodup) : ((rset r k v).map Prod.fst).Nodup := by
  unfold rset
  split
  · rwa [keys_map_overwrite]
  · next hc =>
    have hk : k ∉ r.map Prod.fst := by
      intro hmem
      rcases List.mem_map.mp hmem with ⟨p, hp, hfst⟩
      exact hc (List.any_eq_true.mpr ⟨p, hp, by rwa [beq_iff_eq]⟩)
    simp [List.map_append, List.nodup_append, h, hk]

/-- Every generated variant record has distinct keys that are exactly the
accumulated keys plus the names of the remaining options. -/
theorem genComb_keys (opts : List (String × List String)) :
    ∀ cur v, v ∈ genComb opts cur → (cur.map Prod.fst).Nodup →
      ((v.options.map Prod.fst).Nodup ∧
       ∀ k, k ∈ v.options.map Prod.fst ↔
         (k ∈ cur.map Prod.fst ∨ k ∈ opts.map Prod.fst)) := by
  induction opts with
  | nil =>
    intro cur v hv hnd
    simp only [genComb, List.mem_singleton] at hv
    subst hv
    simpa using hnd
  | cons hd tl ih =>
    intro cur v hv hnd
    obtain ⟨name, vals⟩ := hd
    simp only [genComb, List.mem_flatMap] at hv
    obtain ⟨val, hval, hv⟩ := hv
    obtain ⟨h1, h2⟩ := ih (rset cur name val) v hv (nodup_keys_rset cur name val hnd)
    refine ⟨h1, fun k => ?_⟩
    rw [h2 k, mem_keys_rset]
    simp only [List.map_cons, List.mem_cons]
    tauto

/-- The names of the returned options are the names of the surviving
descriptors. -/
theorem formatEbayVariants_names (opts : List OptionObj) :
    (formatEbayVariants opts).1.map ProductOption.name
      = (surviving opts).map Prod.fst := by
  unfold formatEbayVariants
  split
  · next he =>
    rw [List.length_eq_zero] at he
    subst he
    rfl
  · dsimp only
    split
    · next he => simp [List.length_eq_zero.mp he]
    · simp [List.map_map]

/-- Every returned variant comes from the generator run on the surviving
descriptors. -/
theorem formatEbayVariants_variants_sub (opts : List OptionObj) :
    ∀ v ∈ (formatEbayVariants opts).2, v ∈ genComb (surviving opts) [] := by
  intro v hv
  simp only [formatEbayVariants] at hv
  split at hv
  · simp at hv
  · split at hv
    · simp at hv
    · exact hv

end EbayScraper

namespace EbayScraper

/-- C8: every generated variant's options record has distinct keys, and
its key set equals the set of surviving option names. -/
theorem C8_variant_option_keys (opts : List OptionObj) :
    ∀ v ∈ (formatEbayVariants opts).2,
      (v.options.map Prod.fst).Nodup ∧
      ∀ k, k ∈ v.options.map Prod.fst ↔
        k ∈ (formatEbayVariants opts).1.map ProductOption.name := by
  intro v hv
  obtain ⟨h1, h2⟩ := genComb_keys (surviving opts) [] v
    (formatEbayVariants_variants_sub opts v hv) (by simp)
  refine ⟨h1, fun k => ?_⟩
  rw [formatEbayVariants_names, h2 k]
  simp

/-- The first variant of the Color/Size example. -/
def exVarC8 : ProductVariant :=
  ((formatEbayVariants exOptsC1).2).headD
    { itemId := "", options := [], available := true, price := none }

/-- Witness for C8: concrete variant of the Color/Size example with
distinct keys whose membership matches the surviving names. -/
theorem C8_variant_option_keys_witness :
    (exVarC8.options.map Prod.fst).Nodup ∧
    ("Color" ∈ exVarC8.options.map Prod.fst ↔
      "Color" ∈ (formatEbayVariants exOptsC1).1.map ProductOption.name) :=
  ⟨(C8_variant_option_keys exOptsC1 exVarC8 (by decide)).1,
   (C8_variant_option_keys exOptsC1 exVarC8 (by decide)).2 ("Color")⟩

/-- C4: on a valid eBay URL, when the supplied key is absent or empty and
no environment fallback is configured, the run fails with the
API_KEY_MISSING error and issues zero network requests, whatever the
network would have answered (the credential check precedes the fetch). -/
theorem C4_api_key_missing_no_fetch (ebayUrl : String) (apiKey envKey : Option String)
    (itemId : String)
    (hm : containsSub ebayUrl ("ebay.") = true)
    (hi : extractItemId ebayUrl = some itemId)
    (hk : truthyS apiKey = false) (he : truthyS envKey = false) :
    ∀ fetch, scrapeEbayProduct ebayUrl apiKey envKey fetch
      = { result := .err apiKeyMissingErr.message, requests := 0 }
      ∧ (scrapeCore ebayUrl apiKey envKey fetch).1
        = .error (.scraper apiKeyMissingErr)
      ∧ apiKeyMissingErr.code = .API_KEY_MISSING := by
  intro fetch
  have hkey : truthyS (jsOrS apiKey envKey) = false := by
    unfold jsOrS
    rw [hk]
    simpa using he
  unfold scrapeEbayProduct scrapeCore
  rw [hm, hi]
  refine ⟨?_, ?_, rfl⟩ <;> simp [hkey, pipelineMessage]

/-- Witness for C4: the concrete valid URL, no key, no fallback, and a
network that would have failed — the result is still the credential
error with zero requests. -/
theorem C4_api_key_missing_no_fetch_witness :
    scrapeEbayProduct ("https://www.ebay.com/itm/123") none none (.axiosFail ("boom"))
      = { result := .err apiKeyMissingErr.message, requests := 0 }
      ∧ (scrapeCore ("https://www.ebay.com/itm/123") none none (.axiosFail ("boom"))).1
        = .error (.scraper apiKeyMissingErr)
      ∧ apiKeyMissingErr.code = .API_KEY_MISSING :=
  C4_api_key_missing_no_fetch ("https://www.ebay.com/itm/123") none none ("123")
    (by decide) (by decide) rfl rfl (.axiosFail ("boom"))

/-- C5: a URL without the eBay domain marker, or from which no item id
can be extracted, always yields an INVALID_URL-coded failure; the
missing marker alone forces the invalid-URL error even when an
`/itm/<digits>` segment is present. -/
theorem C5_invalid_url (ebayUrl : String) (apiKey envKey : Option String)
    (fetch : FetchOutcome)
    (h : containsSub ebayUrl ("ebay.") = false ∨ extractItemId ebayUrl = none) :
    ((scrapeCore ebayUrl apiKey envKey fetch).1 = .error (.scraper invalidUrlErr)
      ∨ (scrapeCore ebayUrl apiKey envKey fetch).1 = .error (.scraper noItemIdErr))
    ∧ (containsSub ebayUrl ("ebay.") = false →
        (scrapeCore ebayUrl apiKey envKey fetch).1 = .error (.scraper invalidUrlErr))
    ∧ invalidUrlErr.code = .INVALID_URL ∧ noItemIdErr.code = .INVALID_URL := by
  have hmarker : containsSub ebayUrl ("ebay.") = false →
      (scrapeCore ebayUrl apiKey envKey fetch).1 = .error (.scraper invalidUrlErr) := by
    intro hm
    unfold scrapeCore
    rw [hm]
    rfl
  refine ⟨?_, hmarker, rfl, rfl⟩
  cases hm : containsSub ebayUrl ("ebay.") with
  | false => exact Or.inl (hmarker hm)
  | true =>
    rcases h with h | h
    · rw [hm] at h; cases h
    · right
      unfold scrapeCore
      rw [hm, h]
      rfl

/-- Witness for C5: a URL with an item-id-shaped path but no eBay domain
marker fails with the invalid-URL error. -/
theorem C5_invalid_url_witness :
    ((scrapeCore ("https://example.com/itm/55") none none (.axiosFail ("x"))).1
        = .error (.scraper invalidUrlErr)
      ∨ (scrapeCore ("https://example.com/itm/55") none none (.axiosFail ("x"))).1
        = .error (.scraper noItemIdErr))
    ∧ (containsSub ("https://example.com/itm/55") ("ebay.") = false →
        (scrapeCore ("https://example.com/itm/55") none none (.axiosFail ("x"))).1
          = .error (.scraper invalidUrlErr))
    ∧ invalidUrlErr.code = .INVALID_URL ∧ noItemIdErr.code = .INVALID_URL :=
  C5_invalid_url ("https://example.com/itm/55") none none (.axiosFail ("x"))
    (Or.inl (by decide))

/-- A body carrying a title together with an explicit price value of 0
(and nothing else). -/
def exBodyC2 : ApiBody :=
  { title := some ("Widget"), price := some { value := 0, currency := some ("USD") },
    url := none, condition := none, mainImage := none, images := none,
    ratings := none, reviewsCount := none, options := none,
    availableQuantity := none, breadCrumbs := none, description := none,
    productInformation := none }

/-- Counterexample to C2: a body with a present title and an explicit
price value of 0 does NOT pass the essential-field check — the run fails
with the incomplete-data API_ERROR instead of producing a product
(`hasPrice = apiData.price?.value` is falsy at 0, and the check fires on
`!hasTitle || !hasPrice`, not only when both are absent). -/
theorem C2_counterexample_zero_price_rejected :
    truthyS exBodyC2.title = true
    ∧ exBodyC2.price = some { value := 0, currency := some ("USD") }
    ∧ (scrapeCore ("https://www.ebay.com/itm/1") (some ("k")) none
        (.resp { original_status := 200, pc_status := 200, body := some exBodyC2 })).1
      = .error (.scraper incompleteDataErr)
    ∧ incompleteDataErr.code = .API_ERROR := by
  exact ⟨by decide, rfl, rfl, rfl⟩

/-- C2 as amended: on a run that reaches the essential-field check (valid
URL, credential, 200 statuses, non-empty body), the check fails with the
incomplete-data API_ERROR exactly when the title is falsy OR the price
value is falsy — so an explicit price of 0 is rejected like a missing
one — and when both are truthy the normalizer produces the product. -/
theorem C2_essential_check_amended (ebayUrl : String) (apiKey envKey : Option String)
    (itemId : String) (r : EbayApiResponse) (b : ApiBody)
    (hm : containsSub ebayUrl ("ebay.") = true)
    (hi : extractItemId ebayUrl = some itemId)
    (hk : truthyS (jsOrS apiKey envKey) = true)
    (hs : r.original_status = 200 ∧ r.pc_status = 200)
    (hb : r.body = some b) :
    (scrapeCore ebayUrl apiKey envKey (.resp r)).1
      = (if essentialOk b then .ok (buildProduct itemId ebayUrl b)
         else .error (.scraper incompleteDataErr))
    ∧ incompleteDataErr.code = .API_ERROR
    ∧ (essentialOk b = true ↔
        (truthyS b.title = true ∧ ∃ p, b.price = some p ∧ p.value ≠ 0)) := by
  refine ⟨?_, rfl, ?_⟩
  · unfold scrapeCore
    simp only [hm, hi, hk, hb, hs.1, hs.2, Bool.not_true, Bool.not_false,
      Bool.false_eq_true, if_false, beq_self_eq_true, Bool.and_self]
    cases hok : essentialOk b <;> simp [hok]
  · unfold essentialOk
    cases hp : b.price with
    | none => simp [hp]
    | some p => simp [hp, Bool.and_eq_true, and_congr_right_iff]

/-- Witness for C2 (amended): the zero-price body reaches the check and
is rejected; the equation and the characterisation hold there. -/
theorem C2_essential_check_amended_witness :
    ((scrapeCore ("https://www.ebay.com/itm/1") (some ("k")) none
        (.resp { original_status := 200, pc_status := 200, body := some exBodyC2 })).1
      = (if essentialOk exBodyC2
         then .ok (buildProduct ("1") ("https://www.ebay.com/itm/1") exBodyC2)
         else .error (.scraper incompleteDataErr)))
    ∧ incompleteDataErr.code = .API_ERROR
    ∧ (essentialOk exBodyC2 = true ↔
        (truthyS exBodyC2.title = true ∧ ∃ p, exBodyC2.price = some p ∧ p.value ≠ 0)) :=
  C2_essential_check_amended ("https://www.ebay.com/itm/1") (some ("k")) none ("1")
    { original_status := 200, pc_status := 200, body := some exBodyC2 } exBodyC2
    (by decide) rfl rfl ⟨rfl, rfl⟩ rfl

end EbayScraper

namespace EbayScraper

/-! ### Lemmas about the thumbnail rewrite -/

/-- The regex cannot match at a head character other than a slash. -/
theorem slTail_cons_ne (c : Char) (cs : List Char) (hc : c ≠ '/') :
    slTail (c :: cs) = none := by
  unfold slTail
  split
  · rename_i rest heq
    injection heq with h1 h2
    exact absurd h1 hc
  · rfl

/-- Scanning past a non-slash character keeps it. -/
theorem replaceSLChars_cons_ne (c : Char) (cs : List Char) (hc : c ≠ '/') :
    replaceSLChars (c :: cs) = c :: replaceSLChars cs := by
  simp only [replaceSLChars, slTail_cons_ne c cs hc]

/-- The rewrite preserves a leading `"http"` (its match always begins at
a slash, which `"http"` does not contain). -/
theorem isPrefixOfB_http_replaceSL (l : List Char)
    (h : isPrefixOfB (String.data ("http")) l = true) :
    isPrefixOfB (String.data ("http")) (replaceSLChars l) = true := by
  rcases l with _ | ⟨a, _ | ⟨b, _ | ⟨c, _ | ⟨d, rest⟩⟩⟩⟩ <;>
    simp [isPrefixOfB] at h
  obtain ⟨ha, hb, hcc, hd⟩ := h
  subst ha hb hcc hd
  rw [replaceSLChars_cons_ne _ _ (by decide), replaceSLChars_cons_ne _ _ (by decide),
      replaceSLChars_cons_ne _ _ (by decide), replaceSLChars_cons_ne _ _ (by decide)]
  simp [isPrefixOfB]

/-- String form: the thumbnail rewrite keeps the `"http"` prefix. -/
theorem startsWithB_http_replaceSL (s : String)
    (h : startsWithB s ("http") = true) :
    startsWithB (replaceSL s) ("http") = true := by
  unfold startsWithB at h ⊢
  exact isPrefixOfB_http_replaceSL s.data h

/-- So does the per-image normalizer. -/
theorem startsWithB_http_normalizeImg (s : String)
    (h : startsWithB s ("http") = true) :
    startsWithB (normalizeImg s) ("http") = true := by
  unfold normalizeImg
  split
  · exact startsWithB_http_replaceSL s h
  · exact h

end EbayScraper

namespace EbayScraper

/-- Follows the spec's words, for comparison with the code (refinement):
the thumbnail pattern is a path segment `"/s-l<digits>."` followed by
`".jpg"` — i.e. at some position the literal `"/s-l"`, a non-empty digit
run, then a dot from which the rest of the string still contains
`".jpg"` (the canonical `"/s-l500.jpg"` example shares its dot with the
`".jpg"`).  The code's actual guard is `includes("/s-l") &&
includes(".jpg")`, which this definition exists to be compared against. -/
def slDotRest : List Char → Option (List Char)
  | '/' :: 's' :: '-' :: 'l' :: rest =>
    let ds := rest.takeWhile Char.isDigit
    if ds.isEmpty then none
    else
      match rest.drop ds.length with
      | '.' :: tail => some ('.' :: tail)
      | _ => none
  | _ => none

/-- Scanner for the spec's thumbnail pattern. -/
def specThumbAux : List Char → Bool
  | [] => false
  | c :: cs =>
    (match slDotRest (c :: cs) with
     | some dotRest => infixB (String.data (".jpg")) dotRest
     | none => false) || specThumbAux cs

/-- The spec's thumbnail pattern as a string predicate. -/
def specThumbnail (s : String) : Bool := specThumbAux s.data

/-- Counterexample to C6: the entry `"https://x/a.jpg/s-l500.png"` does
not match the spec's thumbnail pattern (no `".jpg"` at or after the
digit run's dot), yet the normalizer rewrites its digits to 1600 — the
code's guard only asks that `"/s-l"` and `".jpg"` occur somewhere. -/
theorem C6_counterexample_rewrite_without_thumbnail :
    specThumbnail ("https://x/a.jpg/s-l500.png") = false
    ∧ formatImages (some ["https://x/a.jpg/s-l500.png"]) none
      = ["https://x/a.jpg/s-l1600.png"]
    ∧ ("https://x/a.jpg/s-l1600.png" ≠ "https://x/a.jpg/s-l500.png") := by
  exact ⟨by decide, by decide, by decide⟩

/-- C6 as amended: the normalizer keeps exactly the non-empty entries
starting with `"http"`; a kept entry is rewritten — the first
`"/s-l<digits>."` occurrence becoming `"/s-l1600."` — exactly when it
contains `"/s-l"` and contains `".jpg"` anywhere in the string (the
`".jpg"` need not follow the digits), and is passed through unchanged
otherwise; in particular the `"s-l500.jpg"` example normalizes to
`"s-l1600.jpg"`. -/
theorem C6_image_rewrite_amended :
    (∀ (imgs : List String) (mi : Option String) (img : String), img ∈ imgs →
      keepImg img = true → slRewriteCond img = false →
      img ∈ formatImages (some imgs) mi)
    ∧ (∀ (imgs : List String) (mi : Option String) (img : String), img ∈ imgs →
        keepImg img = true → slRewriteCond img = true →
        replaceSL img ∈ formatImages (some imgs) mi)
    ∧ (∀ (imgs : List String) (mi : Option String),
        ∀ out ∈ formatImages (some imgs) mi,
          ∃ img ∈ imgs, keepImg img = true ∧ out = normalizeImg img)
    ∧ formatImages (some ["https://i.ebayimg.com/images/g/abc/s-l500.jpg"]) none
      = ["https://i.ebayimg.com/images/g/abc/s-l1600.jpg"] := by
  refine ⟨?_, ?_, ?_, by decide⟩
  · intro imgs mi img hmem hkeep hcond
    unfold formatImages
    refine List.mem_map.mpr ⟨img, List.mem_filter.mpr ⟨hmem, hkeep⟩, ?_⟩
    unfold normalizeImg
    rw [hcond]
    rfl
  · intro imgs mi img hmem hkeep hcond
    unfold formatImages
    refine List.mem_map.mpr ⟨img, List.mem_filter.mpr ⟨hmem, hkeep⟩, ?_⟩
    unfold normalizeImg
    rw [hcond]
    rfl
  · intro imgs mi out hout
    unfold formatImages at hout
    rcases List.mem_map.mp hout with ⟨img, hf, rfl⟩
    rcases List.mem_filter.mp hf with ⟨hmem, hkeep⟩
    exact ⟨img, hmem, hkeep, rfl⟩

/-- Witness for C6 (amended): a kept entry without the rewrite guard is
passed through, and a kept entry with the guard is rewritten. -/
theorem C6_image_rewrite_amended_witness :
    ("http://plain.png" ∈ formatImages (some ["http://plain.png"]) none)
    ∧ (replaceSL ("http://a/s-l2.x.jpg")
        ∈ formatImages (some ["http://a/s-l2.x.jpg"]) none) :=
  ⟨C6_image_rewrite_amended.1 ["http://plain.png"] none ("http://plain.png")
      (by decide) (by decide) (by decide),
   C6_image_rewrite_amended.2.1 ["http://a/s-l2.x.jpg"] none ("http://a/s-l2.x.jpg")
      (by decide) (by decide) (by decide)⟩

end EbayScraper

namespace EbayScraper

/-- A body whose explicit image list is absent and whose main image is
not an absolute URL. -/
def exBodyC7 : ApiBody :=
  { title := some ("T"), price := some { value := 5, currency := none },
    url := none, condition := none, mainImage := some ("foo.jpg"), images := none,
    ratings := none, reviewsCount := none, options := none,
    availableQuantity := none, breadCrumbs := none, description := none,
    productInformation := none }

/-- Counterexample to C7: when the explicit image list is absent, the
main-image fallback is copied verbatim with no scheme check, so a
successful product can carry an images entry that is not an absolute
URL. -/
theorem C7_counterexample_relative_main_image :
    (scrapeEbayProduct ("https://www.ebay.com/itm/9") (some ("k")) none
        (.resp { original_status := 200, pc_status := 200, body := some exBodyC7 })).result
      = .ok (buildProduct ("9") ("https://www.ebay.com/itm/9") exBodyC7)
    ∧ (buildProduct ("9") ("https://www.ebay.com/itm/9") exBodyC7).images = ["foo.jpg"]
    ∧ startsWithB ("foo.jpg") ("http") = false :=
  ⟨rfl, rfl, by decide⟩

/-- C7 as amended: every image produced from an explicit image list
starts with `"http"` (the filter keeps only such entries and the
thumbnail rewrite preserves the prefix), while the main-image fallback
is used verbatim without validation — in particular the spec's
`mainImage = "https://x/a.jpg"` example yields exactly that singleton,
but a non-URL main image passes through as well. -/
theorem C7_images_scheme_amended :
    (∀ (imgs : List String) (mi : Option String),
      ∀ img ∈ formatImages (some imgs) mi, startsWithB img ("http") = true)
    ∧ (∀ m : String, ¬(m = "") → formatImages none (some m) = [m])
    ∧ formatImages none (some ("https://x/a.jpg")) = ["https://x/a.jpg"] := by
  refine ⟨?_, ?_, by decide⟩
  · intro imgs mi img hmem
    unfold formatImages at hmem
    rcases List.mem_map.mp hmem with ⟨i, hf, rfl⟩
    rcases List.mem_filter.mp hf with ⟨hi, hkeep⟩
    unfold keepImg at hkeep
    rw [Bool.and_eq_true] at hkeep
    exact startsWithB_http_normalizeImg i hkeep.2
  · intro m hm
    unfold formatImages
    simp [hm]

/-- Witness for C7 (amended): a concrete explicit-list entry keeps its
`"http"` prefix, and a concrete non-empty main image is passed through. -/
theorem C7_images_scheme_amended_witness :
    startsWithB ("http://a") ("http") = true
    ∧ formatImages none (some ("foo.jpg")) = ["foo.jpg"] :=
  ⟨C7_images_scheme_amended.1 ["http://a"] none ("http://a") (by decide),
   C7_images_scheme_amended.2.1 ("foo.jpg") (by decide)⟩

end EbayScraper

namespace EbayScraper

/-! ### Lemmas about trimming and value cleanup -/

/-- The head surviving `dropWhile` fails the predicate. -/
theorem head?_dropWhile_not (p : Char → Bool) (l : List Char) :
    ∀ a, (l.dropWhile p).head? = some a → p a = false := by
  induction l with
  | nil => intro a h; simp [List.dropWhile] at h
  | cons x xs ih =>
    intro a h
    rw [List.dropWhile_cons] at h
    split at h
    · exact ih a h
    · next hx =>
      simp only [List.head?_cons, Option.some.injEq] at h
      subst h
      exact Bool.not_eq_true _ ▸ Bool.of_not_eq_true hx

/-- A non-empty `dropWhile` keeps the last element. -/
theorem getLast?_dropWhile (p : Char → Bool) (l : List Char)
    (h : l.dropWhile p ≠ []) : (l.dropWhile p).getLast? = l.getLast? := by
  induction l with
  | nil => simp [List.dropWhile] at h
  | cons x xs ih =>
    rw [List.dropWhile_cons] at h ⊢
    split at h
    · next hx =>
      rw [if_pos hx, ih h]
      have hxs : xs ≠ [] := by
        intro he
        rw [he] at h
        simp [List.dropWhile] at h
      cases xs with
      | nil => exact absurd rfl hxs
      | cons y ys => rw [List.getLast?_cons_cons]
    · next hx => rw [if_neg hx]

/-- Absence of leading and trailing whitespace, as a string predicate. -/
def noEdgeWS (s : String) : Bool :=
  (s.data.head?.elim true (fun ch => !ch.isWhitespace))
  && (s.data.getLast?.elim true (fun ch => !ch.isWhitespace))

/-- A trimmed string has no leading or trailing whitespace. -/
theorem noEdgeWS_jsTrim (s : String) : noEdgeWS (jsTrim s) = true := by
  unfold noEdgeWS jsTrim trimChars
  rw [Bool.and_eq_true]
  constructor
  · show ((((s.data.dropWhile Char.isWhitespace).reverse.dropWhile
        Char.isWhitespace).reverse.head?).elim true (fun ch => !ch.isWhitespace)) = true
    rw [List.head?_reverse]
    cases hme : ((s.data.dropWhile Char.isWhitespace).reverse.dropWhile
        Char.isWhitespace).getLast? with
    | none => rfl
    | some a =>
      have hne : (s.data.dropWhile Char.isWhitespace).reverse.dropWhile
          Char.isWhitespace ≠ [] := by
        intro h0
        rw [h0] at hme
        simp at hme
      rw [getLast?_dropWhile _ _ hne, List.getLast?_reverse] at hme
      have hw := head?_dropWhile_not Char.isWhitespace s.data a hme
      simp [hw]
  · show ((((s.data.dropWhile Char.isWhitespace).reverse.dropWhile
        Char.isWhitespace).reverse.getLast?).elim true (fun ch => !ch.isWhitespace)) = true
    rw [List.getLast?_reverse]
    cases hme : ((s.data.dropWhile Char.isWhitespace).reverse.dropWhile
        Char.isWhitespace).head? with
    | none => rfl
    | some a =>
      have hw := head?_dropWhile_not Char.isWhitespace
        (s.data.dropWhile Char.isWhitespace).reverse a hme
      simp [hw]

/-- Membership in the cleaned value list: the value is the trim of a raw
value and its lowercase form does not contain the out-of-stock marker. -/
theorem mem_availableValues (raw : List String) (v : String)
    (h : v ∈ availableValues raw) :
    (∃ w ∈ raw, v = jsTrim w)
    ∧ containsSub (strLower v) ("out of stock") = false := by
  unfold availableValues at h
  rcases List.mem_filter.mp h with ⟨hmap, hfilt⟩
  rcases List.mem_map.mp hmap with ⟨w, hw, rfl⟩
  refine ⟨⟨w, hw, rfl⟩, ?_⟩
  simpa using hfilt

/-- Every surviving descriptor's value list is a cleaned raw list. -/
theorem mem_surviving_values (opts : List OptionObj) (n : String) (vs : List String)
    (h : (n, vs) ∈ surviving opts) : ∃ raw, vs = availableValues raw := by
  unfold surviving at h
  rcases List.mem_flatMap.mp h with ⟨obj, hobj, hmem⟩
  rcases List.mem_filterMap.mp hmem with ⟨entry, hentry, heq⟩
  rcases entry with ⟨en, od⟩
  cases od with
  | none => simp at heq
  | some od' =>
    cases hv : od'.values with
    | none => simp [hv] at heq
    | some raw =>
      simp only [hv] at heq
      split at heq
      · simp only [Option.some.injEq, Prod.mk.injEq] at heq
        exact ⟨raw, heq.2.symm⟩
      · simp at heq

/-- Every returned option is built from a surviving descriptor. -/
theorem mem_options_surviving (opts : List OptionObj) (o : ProductOption)
    (h : o ∈ (formatEbayVariants opts).1) :
    ∃ nv ∈ surviving opts, o = ProductOption.mk nv.1 nv.2 := by
  simp only [formatEbayVariants] at h
  split at h
  · simp at h
  · split at h
    · simp at h
    · rcases List.mem_map.mp h with ⟨nv, hnv, rfl⟩
      exact ⟨nv, hnv, rfl⟩

end EbayScraper

namespace EbayScraper

/-- An options input whose single descriptor carries a duplicate value
and a whitespace-only value. -/
def exOptsC9 : List OptionObj :=
  [[("Color", some { values := some ["A", "A", "  ", "Out of stock"],
                     selectedValue := none })]]

/-- Counterexample to C9: after trimming and out-of-stock filtering the
option keeps the duplicate `"A"` and the empty string — the code never
deduplicates nor drops empties, so the values list is not an ordered set
of distinct non-empty strings. -/
theorem C9_counterexample_duplicates_and_empty :
    (formatEbayVariants exOptsC9).1
      = [{ name := "Color", values := ["A", "A", ""] }]
    ∧ ¬ (∀ o ∈ (formatEbayVariants exOptsC9).1, o.values.Nodup ∧ "" ∉ o.values) :=
  ⟨by decide, by decide⟩

/-- C9 as amended: every value of every produced option is a trimmed raw
value (no leading or trailing whitespace) whose lowercased form does not
contain `"out of stock"`; duplicates and empty strings, however, are
preserved. -/
theorem C9_option_values_amended (opts : List OptionObj) :
    ∀ o ∈ (formatEbayVariants opts).1, ∀ v ∈ o.values,
      noEdgeWS v = true
      ∧ containsSub (strLower v) ("out of stock") = false := by
  intro o ho v hv
  rcases mem_options_surviving opts o ho with ⟨nv, hnv, rfl⟩
  rcases mem_surviving_values opts nv.1 nv.2 (by simpa using hnv) with ⟨raw, hraw⟩
  have hv2 : v ∈ availableValues raw := by
    rw [← hraw]
    simpa using hv
  rcases mem_availableValues raw v hv2 with ⟨⟨w, hw, rfl⟩, hoos⟩
  exact ⟨noEdgeWS_jsTrim w, hoos⟩

/-- Witness for C9 (amended): a concrete produced value is trimmed and
free of the out-of-stock marker. -/
theorem C9_option_values_amended_witness :
    noEdgeWS ("Black") = true
    ∧ containsSub (strLower ("Black")) ("out of stock") = false :=
  C9_option_values_amended exOptsC1
    { name := "Color", values := ["Black", "Pink"] } (by decide) ("Black") (by decide)

end EbayScraper
